import Mathlib

/-!
Shallow embedding of `src/timeseriesgym/grade_helpers.py` (module
`timeseriesgym.grade_helpers`).

Modelling conventions:
* Python floats are modelled by `ℚ` (ideal arithmetic).  The float literals
  `0.1`, `0.2`, `0.4`, `0.002`, `0.05` of `get_thresholds` are modelled by the
  exact rationals they denote in the source text; the truncations
  `int(num_teams * c)` agree with exact arithmetic throughout the practical
  range of leaderboard sizes.
* A leaderboard is modelled by its `score` column: a `List ℚ`, row 0 first.
  The claims under consideration all presuppose that the `score` column is
  present, so the `assert "score" in leaderboard.columns` guard is satisfied
  and is not modelled further.
* A raised Python exception is modelled by `Option.none` / `Except.error`:
  a function that may raise returns an `Option`.
* `pandas.Series.median` (an external dependency of the module) is modelled
  by the statistical median of the list: middle element of the sorted values
  for odd length, mean of the two middle elements for even length.
-/

namespace TimeSeriesGym

/-- The `score` column of a leaderboard, row 0 = best entry. -/
abbrev Leaderboard := List ℚ

/-- Embedding of `Grader.is_lower_better`: compares `scores.iloc[0]` with
`scores.iloc[-1]`; both lookups raise `IndexError` on an empty series, which
is modelled by `none`. -/
def is_lower_better (lb : Leaderboard) : Option Bool := do
  let top_score ← lb.head?
  let bottom_score ← lb.getLast?
  pure (decide (top_score < bottom_score))

/-- Embedding of the nested `get_score_at_position` of `Grader.rank_score`:
1-based lookup into the score column, `IndexError` (modelled by `none`) when
`position - 1 >= len(scores) or position < 1`. -/
def get_score_at_position (scores : List ℚ) (position : ℕ) : Option ℚ :=
  if scores.length ≤ position - 1 ∨ position < 1 then none
  else some (scores.getD (position - 1) 0)

/-- Embedding of Python `int(num_teams * c)` for a nonnegative team count
`num_teams` and a nonnegative constant `c` (truncation towards zero =
floor). -/
def intOfMul (num_teams : ℕ) (c : ℚ) : ℕ := (⌊(num_teams : ℚ) * c⌋).toNat

/-- Insertion of a score into an ascending list, keeping it sorted. -/
def insertSorted (x : ℚ) : List ℚ → List ℚ
  | [] => [x]
  | y :: ys => if x ≤ y then x :: y :: ys else y :: insertSorted x ys

/-- Ascending insertion sort of the scores. -/
def sortScores : List ℚ → List ℚ
  | [] => []
  | x :: xs => insertSorted x (sortScores xs)

/-- Statistical median of a list of scores, modelling `scores.median()` of
pandas: middle element of the sorted values (odd length), or the mean of the
two middle elements (even length). -/
def median (l : List ℚ) : ℚ :=
  let s := sortScores l
  if l.length % 2 = 1 then s.getD (l.length / 2) 0
  else (s.getD (l.length / 2 - 1) 0 + s.getD (l.length / 2) 0) / 2

/-- Embedding of the nested `get_thresholds` of `Grader.rank_score`:
medal thresholds per the kaggle progression bands, plus the median threshold.
The `else: raise ValueError` branch (num_teams < 1) and any out-of-bounds
position lookup are modelled by `none`. -/
def get_thresholds (scores : List ℚ) (num_teams : ℕ) : Option (ℚ × ℚ × ℚ × ℚ) := do
  let (gold_threshold, silver_threshold, bronze_threshold) ←
    if 1 ≤ num_teams ∧ num_teams < 100 then do
      let g ← get_score_at_position scores (max 1 (intOfMul num_teams (1/10)))
      let s ← get_score_at_position scores (max 1 (intOfMul num_teams (2/10)))
      let b ← get_score_at_position scores (max 1 (intOfMul num_teams (4/10)))
      pure (g, s, b)
    else if 100 ≤ num_teams ∧ num_teams < 250 then do
      let g ← get_score_at_position scores 10
      let s ← get_score_at_position scores (max 1 (intOfMul num_teams (2/10)))
      let b ← get_score_at_position scores (max 1 (intOfMul num_teams (4/10)))
      pure (g, s, b)
    else if 250 ≤ num_teams ∧ num_teams < 1000 then do
      let g ← get_score_at_position scores (10 + intOfMul num_teams (2/1000))
      let s ← get_score_at_position scores 50
      let b ← get_score_at_position scores 100
      pure (g, s, b)
    else if 1000 ≤ num_teams then do
      let g ← get_score_at_position scores (10 + intOfMul num_teams (2/1000))
      let s ← get_score_at_position scores (max 1 (intOfMul num_teams (5/100)))
      let b ← get_score_at_position scores (max 1 (intOfMul num_teams (1/10)))
      pure (g, s, b)
    else none
  pure (gold_threshold, silver_threshold, bronze_threshold, median scores)

/-- The fixed-shape record returned by `Grader.rank_score` (in the source, a
dict with these eight keys). -/
structure RankResult where
  gold_medal : Bool
  silver_medal : Bool
  bronze_medal : Bool
  above_median : Bool
  gold_threshold : ℚ
  silver_threshold : ℚ
  bronze_threshold : ℚ
  median_threshold : ℚ
deriving Repr, DecidableEq

/-- Embedding of `Grader.rank_score`.  A candidate score of `none` models the
Python `score is None` path; a raised exception anywhere (empty leaderboard in
`is_lower_better`, out-of-bounds position or `num_teams < 1` in
`get_thresholds`) is modelled by a `none` result.  The
`assert isinstance(score, float | int)` guard always passes in the model,
where a present score is a rational. -/
def rank_score (score : Option ℚ) (lb : Leaderboard) : Option RankResult := do
  let lower_is_better ← is_lower_better lb
  let num_teams := lb.length
  let (gold_threshold, silver_threshold, bronze_threshold, median_threshold) ←
    get_thresholds lb num_teams
  match score with
  | none =>
      pure { gold_medal := false, silver_medal := false, bronze_medal := false,
             above_median := false, gold_threshold, silver_threshold,
             bronze_threshold, median_threshold }
  | some sc =>
      let gold_medal :=
        if lower_is_better then decide (sc ≤ gold_threshold)
        else decide (sc ≥ gold_threshold)
      let silver_medal := !gold_medal &&
        (if lower_is_better then decide (sc ≤ silver_threshold)
         else decide (sc ≥ silver_threshold))
      let bronze_medal := !gold_medal && !silver_medal &&
        (if lower_is_better then decide (sc ≤ bronze_threshold)
         else decide (sc ≥ bronze_threshold))
      let above_median :=
        if lower_is_better then decide (sc < median_threshold)
        else decide (sc > median_threshold)
      pure { gold_medal, silver_medal, bronze_medal, above_median,
             gold_threshold, silver_threshold, bronze_threshold,
             median_threshold }

/-- Embedding of the `GradingInput` dataclass: a bag of optional fields.  The
payload types are abstracted (a submission table as rows of rationals, paths
and configs as strings / association lists); the claims only depend on which
fields are set, not on their contents. -/
structure GradingInput where
  submission : Option (List (List ℚ))
  answers : Option String
  submission_folder_path : Option String
  hyperparameter_search_config : Option (List (String × String))
  solution_file_path : Option String
  submission_file_path : Option String
  coding_config : Option (List (String × String))

/-- A `GradingInput` with every field absent. -/
def GradingInput.empty : GradingInput :=
  ⟨none, none, none, none, none, none, none⟩

/-- The exceptions a scoring function may raise: the distinguished
`InvalidSubmissionError` from `timeseriesgym.utils`, or any other exception
(carrying its message). -/
inductive GradeExc where
  | invalidSubmission (msg : String)
  | other (msg : String)

/-- A value returned by a scoring function: a Python float (modelled by `ℚ`)
or a non-float scalar such as an int.  Only `float` passes the
`isinstance(score, float)` test in `Grader.__call__`. -/
inductive Value where
  | float (q : ℚ)
  | int (z : ℤ)
deriving Repr, DecidableEq

/-- Model of the wrapped scoring function held by a `Grader`: its behaviour,
plus the metadata `inspect` can recover from it.  `sourceLoc` is
`some (file, line)` when `inspect.getfile`/`inspect.getsourcelines` resolve,
and `none` when they raise `TypeError`; `strRepr` models `str(fn)`. -/
structure GradeFn where
  run : GradingInput → Except GradeExc Value
  sourceLoc : Option (String × ℕ)
  strRepr : String

/-- A diagnostic record emitted by `Grader.__call__`: `logger.warning` or
`logger.error` with the given message. -/
inductive LogEntry where
  | warning (msg : String)
  | error (msg : String)
deriving Repr, DecidableEq

/-- Rounding of a rational to the nearest integer with ties going to the even
integer, the rule of Python `round` (banker's rounding). -/
def roundHalfEven (x : ℚ) : ℤ :=
  if x - ⌊x⌋ < 1/2 then ⌊x⌋
  else if 1/2 < x - ⌊x⌋ then ⌊x⌋ + 1
  else if ⌊x⌋ % 2 = 0 then ⌊x⌋ else ⌊x⌋ + 1

/-- Embedding of Python `round(score, 5)` on a float: round to the nearest
multiple of `10⁻⁵`, ties to even. -/
def round_5 (q : ℚ) : ℚ := (roundHalfEven (q * 100000) : ℚ) / 100000

/-- Embedding of `Grader.__call__`: invoke the scoring function on the
populated fields of the grading input (the keyword filtering only affects the
Python calling convention and is absorbed into `GradeFn.run`), mapping
`InvalidSubmissionError` to `(none, warning)`, any other exception to
`(none, error)` with the function's source location (or string identity) in
the message, and a successful float score to its 5-decimal rounding.  The
first component is the return value, the second the emitted log entries. -/
def grader_call (g : GradeFn) (grading_input : GradingInput) :
    Option Value × List LogEntry :=
  match g.run grading_input with
  | .error (.invalidSubmission e) =>
      (none, [.warning ("Invalid submission: " ++ e)])
  | .error (.other e) =>
      let fn_info :=
        match g.sourceLoc with
        | some (fpath, line_number) => fpath ++ ":" ++ toString line_number
        | none => g.strRepr
      (none, [.error ("Unexpected error during grading: " ++ e ++
                      ". Check " ++ fn_info)])
  | .ok score =>
      let rounded_score :=
        match score with
        | .float q => Value.float (round_5 q)
        | v => v
      (some rounded_score, [])

/-- Embedding of the frozen dataclass `CompetitionReport`.  `datetime` values
are modelled by an abstract instant (`ℤ`); floats by `ℚ`. -/
structure CompetitionReport where
  competition_id : String
  score : Option ℚ
  gold_threshold : Option ℚ
  silver_threshold : Option ℚ
  bronze_threshold : Option ℚ
  median_threshold : Option ℚ
  any_medal : Option Bool
  gold_medal : Option Bool
  silver_medal : Option Bool
  bronze_medal : Option Bool
  above_median : Option Bool
  submission_exists : Bool
  valid_submission : Bool
  is_lower_better : Bool
  created_at : ℤ
  submission_path : String
deriving Repr, DecidableEq

/-- The dictionary produced by `CompetitionReport.to_dict`, with one field per
key.  `score` is string-or-null: the string `str(score)` is modelled by the
numeric value it denotes (Python's `repr`/`float` round-trip is exact), so an
encoded score is `Option ℚ`.  `created_at` holds the ISO-8601 string of the
instant, modelled by the instant itself (`datetime.isoformat` and
`datetime.fromisoformat` are a bijection onto its image). -/
structure CompetitionReportDict where
  competition_id : String
  score : Option ℚ
  gold_threshold : ℚ
  silver_threshold : ℚ
  bronze_threshold : ℚ
  median_threshold : ℚ
  any_medal : Bool
  gold_medal : Bool
  silver_medal : Bool
  bronze_medal : Bool
  above_median : Bool
  submission_exists : Bool
  valid_submission : Bool
  is_lower_better : Bool
  created_at : ℤ
  submission_path : String
deriving Repr, DecidableEq

/-- Embedding of `CompetitionReport.to_dict`.  `float(x)` on a
threshold raises `TypeError` when the field is `None` (modelled by `none`);
`bool(x)` maps `None` to `False` (modelled by `Option.getD false`);
`str(self.score)` keeps the numeric value; `isoformat` keeps the instant. -/
def CompetitionReport.to_dict (r : CompetitionReport) :
    Option CompetitionReportDict := do
  let gold_threshold ← r.gold_threshold
  let silver_threshold ← r.silver_threshold
  let bronze_threshold ← r.bronze_threshold
  let median_threshold ← r.median_threshold
  pure { competition_id := r.competition_id
         score := r.score
         gold_threshold, silver_threshold, bronze_threshold, median_threshold
         any_medal := r.any_medal.getD false
         gold_medal := r.gold_medal.getD false
         silver_medal := r.silver_medal.getD false
         bronze_medal := r.bronze_medal.getD false
         above_median := r.above_median.getD false
         submission_exists := r.submission_exists
         valid_submission := r.valid_submission
         is_lower_better := r.is_lower_better
         created_at := r.created_at
         submission_path := r.submission_path }

/-- Embedding of `CompetitionReport.from_dict` (the pure value computed from
the dictionary contents; the defensive copy is modelled separately in
`from_dict_heap`).  `float(data["score"])` recovers the numeric value of the
score string; `bool` on a boolean and `float` on a float are the identity;
`datetime.fromisoformat` recovers the instant. -/
def CompetitionReport.from_dict (data : CompetitionReportDict) :
    CompetitionReport :=
  { competition_id := data.competition_id
    score := data.score
    gold_threshold := some data.gold_threshold
    silver_threshold := some data.silver_threshold
    bronze_threshold := some data.bronze_threshold
    median_threshold := some data.median_threshold
    any_medal := some data.any_medal
    gold_medal := some data.gold_medal
    silver_medal := some data.silver_medal
    bronze_medal := some data.bronze_medal
    above_median := some data.above_median
    submission_exists := data.submission_exists
    valid_submission := data.valid_submission
    is_lower_better := data.is_lower_better
    created_at := data.created_at
    submission_path := data.submission_path }

/-- Embedding of the frozen dataclass `CodeCompetitionReport`. -/
structure CodeCompetitionReport where
  competition_id : String
  defined_classes : Option String
  initialized_classes : Option String
  defined_class_methods : Option String
  executed_class_methods : Option String
  defined_functions : Option String
  executed_functions : Option String
  test_metric : Option String
  submission_exists : Bool
  valid_submission : Bool
  created_at : ℤ
  submission_path : String
deriving Repr, DecidableEq

/-- The dictionary produced by `CodeCompetitionReport.to_dict`: the nullable
string fields pass through unchanged, the booleans through `bool`, the
timestamp through `isoformat` (modelled by the instant). -/
structure CodeCompetitionReportDict where
  competition_id : String
  defined_classes : Option String
  initialized_classes : Option String
  defined_class_methods : Option String
  executed_class_methods : Option String
  defined_functions : Option String
  executed_functions : Option String
  test_metric : Option String
  submission_exists : Bool
  valid_submission : Bool
  created_at : ℤ
  submission_path : String
deriving Repr, DecidableEq

/-- Embedding of `CodeCompetitionReport.to_dict` (total: no field coercion can
raise here). -/
def CodeCompetitionReport.to_dict (r : CodeCompetitionReport) :
    CodeCompetitionReportDict :=
  { competition_id := r.competition_id
    defined_classes := r.defined_classes
    initialized_classes := r.initialized_classes
    defined_class_methods := r.defined_class_methods
    executed_class_methods := r.executed_class_methods
    defined_functions := r.defined_functions
    executed_functions := r.executed_functions
    test_metric := r.test_metric
    submission_exists := r.submission_exists
    valid_submission := r.valid_submission
    created_at := r.created_at
    submission_path := r.submission_path }

/-- Embedding of `CodeCompetitionReport.from_dict` (the pure value; the
defensive copy is modelled separately in `code_from_dict_heap`). -/
def CodeCompetitionReport.from_dict (data : CodeCompetitionReportDict) :
    CodeCompetitionReport :=
  { competition_id := data.competition_id
    defined_classes := data.defined_classes
    initialized_classes := data.initialized_classes
    defined_class_methods := data.defined_class_methods
    executed_class_methods := data.executed_class_methods
    defined_functions := data.defined_functions
    executed_functions := data.executed_functions
    test_metric := data.test_metric
    submission_exists := data.submission_exists
    valid_submission := data.valid_submission
    created_at := data.created_at
    submission_path := data.submission_path }

/-- Heap model of `CompetitionReport.from_dict`, tracking its effect on the
caller's dictionary.  The heap is the list of live dictionaries, the argument
a pointer (index) into it.  `data = data.copy()` allocates a fresh dictionary
with the same contents; every subsequent read is from the copy, and no store
is ever performed.  Returns the decoded report and the final heap. -/
def from_dict_heap (heap : List CompetitionReportDict) (p : ℕ) :
    Option CompetitionReport × List CompetitionReportDict :=
  match heap[p]? with
  | none => (none, heap)
  | some orig =>
      let copied := orig
      let heap' := heap ++ [copied]
      (some (CompetitionReport.from_dict copied), heap')

/-- Heap model of `CodeCompetitionReport.from_dict`, exactly analogous to
`from_dict_heap`. -/
def code_from_dict_heap (heap : List CodeCompetitionReportDict) (p : ℕ) :
    Option CodeCompetitionReport × List CodeCompetitionReportDict :=
  match heap[p]? with
  | none => (none, heap)
  | some orig =>
      let copied := orig
      let heap' := heap ++ [copied]
      (some (CodeCompetitionReport.from_dict copied), heap')

/-! Spec-side definitions, written from the specification's words, to be
compared with the code-side functions above. -/

/-- The leaderboard score at a 1-based position, as the spec phrases it
("the leaderboard score at the 1-based positions given by the size bands"). -/
def scoreAt (lb : Leaderboard) (p : ℕ) : ℚ := lb.getD (p - 1) 0

/-- The (gold, silver, bronze) 1-based positions of the spec's size-band
table: for `1 ≤ n < 100` positions `max(1,⌊0.10·n⌋)`, `max(1,⌊0.20·n⌋)`,
`max(1,⌊0.40·n⌋)`; for `100 ≤ n < 250` positions `10`, `max(1,⌊0.20·n⌋)`,
`max(1,⌊0.40·n⌋)`; for `250 ≤ n < 1000` positions `10+⌊0.002·n⌋`, `50`,
`100`; for `n ≥ 1000` positions `10+⌊0.002·n⌋`, `max(1,⌊0.05·n⌋)`,
`max(1,⌊0.10·n⌋)`. -/
def spec_positions (n : ℕ) : ℕ × ℕ × ℕ :=
  if n < 100 then (max 1 (n / 10), max 1 (n / 5), max 1 (2 * n / 5))
  else if n < 250 then (10, max 1 (n / 5), max 1 (2 * n / 5))
  else if n < 1000 then (10 + n / 500, 50, 100)
  else (10 + n / 500, max 1 (n / 20), max 1 (n / 10))

/-- The spec's "meets-or-beats": `score ≤ threshold` when lower is better,
else `score ≥ threshold`. -/
def meets_or_beats (lower_is_better : Bool) (sc t : ℚ) : Prop :=
  if lower_is_better then sc ≤ t else sc ≥ t

instance (l : Bool) (sc t : ℚ) : Decidable (meets_or_beats l sc t) := by
  unfold meets_or_beats
  infer_instance

/-! Arithmetic helper lemmas. -/

lemma intOfMul_eq_div (n a b : ℕ) :
    intOfMul n ((a : ℚ) / (b : ℚ)) = n * a / b := by
  unfold intOfMul
  have h1 : (n : ℚ) * ((a : ℚ) / (b : ℚ)) = ((n * a : ℕ) : ℚ) / ((b : ℕ) : ℚ) := by
    push_cast
    ring
  rw [h1, Int.floor_toNat, Nat.floor_div_eq_div]

lemma intOfMul_one_tenth (n : ℕ) : intOfMul n (1/10) = n / 10 := by
  have h := intOfMul_eq_div n 1 10
  rw [show ((1 : ℚ)/10) = ((1:ℕ) : ℚ) / ((10:ℕ) : ℚ) by norm_num, h]
  omega

lemma intOfMul_two_tenths (n : ℕ) : intOfMul n (2/10) = n / 5 := by
  have h := intOfMul_eq_div n 2 10
  rw [show ((2 : ℚ)/10) = ((2:ℕ) : ℚ) / ((10:ℕ) : ℚ) by norm_num, h]
  omega

lemma intOfMul_four_tenths (n : ℕ) : intOfMul n (4/10) = 2 * n / 5 := by
  have h := intOfMul_eq_div n 4 10
  rw [show ((4 : ℚ)/10) = ((4:ℕ) : ℚ) / ((10:ℕ) : ℚ) by norm_num, h]
  omega

lemma intOfMul_two_thousandths (n : ℕ) : intOfMul n (2/1000) = n / 500 := by
  have h := intOfMul_eq_div n 2 1000
  rw [show ((2 : ℚ)/1000) = ((2:ℕ) : ℚ) / ((1000:ℕ) : ℚ) by norm_num, h]
  omega

lemma intOfMul_five_hundredths (n : ℕ) : intOfMul n (5/100) = n / 20 := by
  have h := intOfMul_eq_div n 5 100
  rw [show ((5 : ℚ)/100) = ((5:ℕ) : ℚ) / ((100:ℕ) : ℚ) by norm_num, h]
  omega

lemma get_score_at_position_of_bounds (scores : List ℚ) (p : ℕ)
    (h1 : 1 ≤ p) (h2 : p ≤ scores.length) :
    get_score_at_position scores p = some (scores.getD (p - 1) 0) := by
  unfold get_score_at_position
  rw [if_neg]
  push_neg
  omega

lemma is_lower_better_eq_some (lb : Leaderboard) (top bot : ℚ)
    (h1 : lb.head? = some top) (h2 : lb.getLast? = some bot) :
    is_lower_better lb = some (decide (top < bot)) := by
  unfold is_lower_better
  rw [h1, h2]
  rfl

lemma get_thresholds_eq (lb : Leaderboard) (h : 1 ≤ lb.length) :
    get_thresholds lb lb.length =
      some (scoreAt lb (spec_positions lb.length).1,
            scoreAt lb (spec_positions lb.length).2.1,
            scoreAt lb (spec_positions lb.length).2.2,
            median lb) := by
  unfold get_thresholds spec_positions scoreAt
  rcases Nat.lt_or_ge lb.length 100 with h100 | h100
  · rw [if_pos ⟨h, h100⟩, if_pos h100,
        intOfMul_one_tenth, intOfMul_two_tenths, intOfMul_four_tenths,
        get_score_at_position_of_bounds _ _ (by omega) (by omega),
        get_score_at_position_of_bounds _ _ (by omega) (by omega),
        get_score_at_position_of_bounds _ _ (by omega) (by omega)]
    rfl
  rcases Nat.lt_or_ge lb.length 250 with h250 | h250
  · rw [if_neg (by omega), if_pos ⟨h100, h250⟩, if_neg (by omega), if_pos h250,
        intOfMul_two_tenths, intOfMul_four_tenths,
        get_score_at_position_of_bounds _ _ (by omega) (by omega),
        get_score_at_position_of_bounds _ _ (by omega) (by omega),
        get_score_at_position_of_bounds _ _ (by omega) (by omega)]
    rfl
  rcases Nat.lt_or_ge lb.length 1000 with h1000 | h1000
  · rw [if_neg (by omega), if_neg (by omega), if_pos ⟨h250, h1000⟩,
        if_neg (by omega), if_neg (by omega), if_pos h1000,
        intOfMul_two_thousandths,
        get_score_at_position_of_bounds _ _ (by omega) (by omega),
        get_score_at_position_of_bounds _ _ (by omega) (by omega),
        get_score_at_position_of_bounds _ _ (by omega) (by omega)]
    rfl
  · rw [if_neg (by omega), if_neg (by omega), if_neg (by omega), if_pos h1000,
        if_neg (by omega), if_neg (by omega), if_neg (by omega),
        intOfMul_two_thousandths, intOfMul_five_hundredths, intOfMul_one_tenth,
        get_score_at_position_of_bounds _ _ (by omega) (by omega),
        get_score_at_position_of_bounds _ _ (by omega) (by omega),
        get_score_at_position_of_bounds _ _ (by omega) (by omega)]
    rfl

/-- Normal form of `rank_score` on a non-empty leaderboard: the computation
never raises, the thresholds are taken at the spec positions, and the medal
booleans follow the code's priority chain. -/
lemma rank_score_eq_of_nonempty (lb : Leaderboard) (h : 1 ≤ lb.length)
    (top bot : ℚ) (htop : lb.head? = some top) (hbot : lb.getLast? = some bot)
    (score : Option ℚ) :
    rank_score score lb = some (
      let lower := decide (top < bot)
      let g := scoreAt lb (spec_positions lb.length).1
      let s := scoreAt lb (spec_positions lb.length).2.1
      let b := scoreAt lb (spec_positions lb.length).2.2
      let m := median lb
      match score with
      | none => ⟨false, false, false, false, g, s, b, m⟩
      | some sc =>
          let gold := if lower then decide (sc ≤ g) else decide (sc ≥ g)
          let silver := !gold &&
            (if lower then decide (sc ≤ s) else decide (sc ≥ s))
          let bronze := !gold && !silver &&
            (if lower then decide (sc ≤ b) else decide (sc ≥ b))
          let above := if lower then decide (sc < m) else decide (sc > m)
          ⟨gold, silver, bronze, above, g, s, b, m⟩) := by
  simp only [rank_score, is_lower_better_eq_some lb top bot htop hbot,
             get_thresholds_eq lb h, Option.some_bind]
  cases score <;> rfl

/-- C1: for every leaderboard with a score column and `n ≥ 1` rows,
`rank_score` computes the gold/silver/bronze thresholds as the leaderboard
score at the 1-based positions given by the size bands (`spec_positions`,
transcribed from the spec's band table), and the median threshold as the
statistical median of all leaderboard scores, in every band. -/
theorem rank_score_thresholds_follow_bands (lb : Leaderboard)
    (h : 1 ≤ lb.length) (score : Option ℚ) :
    ∃ r, rank_score score lb = some r ∧
      r.gold_threshold = scoreAt lb (spec_positions lb.length).1 ∧
      r.silver_threshold = scoreAt lb (spec_positions lb.length).2.1 ∧
      r.bronze_threshold = scoreAt lb (spec_positions lb.length).2.2 ∧
      r.median_threshold = median lb := by
  have hne : lb ≠ [] := List.ne_nil_of_length_pos (by omega)
  rw [rank_score_eq_of_nonempty lb h (lb.head hne) (lb.getLast hne)
        (List.head?_eq_head hne) (List.getLast?_eq_getLast lb hne) score]
  cases score <;> exact ⟨_, rfl, rfl, rfl, rfl, rfl⟩

/-- Witness for C1 at a concrete leaderboard of 5 descending scores. -/
theorem rank_score_thresholds_follow_bands_witness :
    ∃ r, rank_score (some 3) [5, 4, 3, 2, 1] = some r ∧
      r.gold_threshold = scoreAt [5, 4, 3, 2, 1] (spec_positions 5).1 ∧
      r.silver_threshold = scoreAt [5, 4, 3, 2, 1] (spec_positions 5).2.1 ∧
      r.bronze_threshold = scoreAt [5, 4, 3, 2, 1] (spec_positions 5).2.2 ∧
      r.median_threshold = median [5, 4, 3, 2, 1] :=
  rank_score_thresholds_follow_bands [5, 4, 3, 2, 1] (by decide) (some 3)

/-- C8: for the empty leaderboard, `rank_score` raises (here: the `none`
result modelling the exception) and never produces a ranking record, for any
candidate score including an absent one. -/
theorem rank_score_empty_leaderboard (score : Option ℚ) :
    rank_score score [] = none := rfl

/-- C7: with an absent candidate score, `rank_score` on a non-empty
leaderboard returns a record with all four booleans false, and its four
threshold fields agree with those computed for any present score on the same
leaderboard. -/
theorem rank_score_none_score (lb : Leaderboard) (h : 1 ≤ lb.length) :
    ∃ r, rank_score none lb = some r ∧
      r.gold_medal = false ∧ r.silver_medal = false ∧
      r.bronze_medal = false ∧ r.above_median = false ∧
      ∀ (q : ℚ) (r2 : RankResult), rank_score (some q) lb = some r2 →
        r2.gold_threshold = r.gold_threshold ∧
        r2.silver_threshold = r.silver_threshold ∧
        r2.bronze_threshold = r.bronze_threshold ∧
        r2.median_threshold = r.median_threshold := by
  have hne : lb ≠ [] := List.ne_nil_of_length_pos (by omega)
  have htop := List.head?_eq_head hne
  have hbot := List.getLast?_eq_getLast lb hne
  rw [rank_score_eq_of_nonempty lb h (lb.head hne) (lb.getLast hne) htop hbot none]
  refine ⟨_, rfl, rfl, rfl, rfl, rfl, ?_⟩
  intro q r2 h2
  rw [rank_score_eq_of_nonempty lb h (lb.head hne) (lb.getLast hne) htop hbot
        (some q)] at h2
  obtain rfl := Option.some_injective _ h2.symm
  exact ⟨rfl, rfl, rfl, rfl⟩

/-- Witness for C7 at a concrete leaderboard. -/
theorem rank_score_none_score_witness :
    ∃ r, rank_score none [3, 2, 1] = some r ∧
      r.gold_medal = false ∧ r.silver_medal = false ∧
      r.bronze_medal = false ∧ r.above_median = false ∧
      ∀ (q : ℚ) (r2 : RankResult), rank_score (some q) [3, 2, 1] = some r2 →
        r2.gold_threshold = r.gold_threshold ∧
        r2.silver_threshold = r.silver_threshold ∧
        r2.bronze_threshold = r.bronze_threshold ∧
        r2.median_threshold = r.median_threshold :=
  rank_score_none_score [3, 2, 1] (by decide)

/-- C10: for `n ≥ 1`, every 1-based position that `get_thresholds` passes to
`get_score_at_position` lies within `[1, n]` in each of the four size bands,
so the out-of-bounds (`IndexError`) branch is unreachable and
`get_thresholds` succeeds on every leaderboard of `n` rows. -/
theorem threshold_positions_in_bounds (n : ℕ) (hn : 1 ≤ n) :
    (n < 100 →
      (1 ≤ max 1 (intOfMul n (1/10)) ∧ max 1 (intOfMul n (1/10)) ≤ n) ∧
      (1 ≤ max 1 (intOfMul n (2/10)) ∧ max 1 (intOfMul n (2/10)) ≤ n) ∧
      (1 ≤ max 1 (intOfMul n (4/10)) ∧ max 1 (intOfMul n (4/10)) ≤ n)) ∧
    (100 ≤ n → n < 250 →
      ((1 : ℕ) ≤ 10 ∧ 10 ≤ n) ∧
      (1 ≤ max 1 (intOfMul n (2/10)) ∧ max 1 (intOfMul n (2/10)) ≤ n) ∧
      (1 ≤ max 1 (intOfMul n (4/10)) ∧ max 1 (intOfMul n (4/10)) ≤ n)) ∧
    (250 ≤ n → n < 1000 →
      (1 ≤ 10 + intOfMul n (2/1000) ∧ 10 + intOfMul n (2/1000) ≤ n) ∧
      ((1 : ℕ) ≤ 50 ∧ 50 ≤ n) ∧ ((1 : ℕ) ≤ 100 ∧ 100 ≤ n)) ∧
    (1000 ≤ n →
      (1 ≤ 10 + intOfMul n (2/1000) ∧ 10 + intOfMul n (2/1000) ≤ n) ∧
      (1 ≤ max 1 (intOfMul n (5/100)) ∧ max 1 (intOfMul n (5/100)) ≤ n) ∧
      (1 ≤ max 1 (intOfMul n (1/10)) ∧ max 1 (intOfMul n (1/10)) ≤ n)) ∧
    (∀ lb : Leaderboard, lb.length = n → (get_thresholds lb n).isSome) := by
  rw [intOfMul_one_tenth, intOfMul_two_tenths, intOfMul_four_tenths,
      intOfMul_two_thousandths, intOfMul_five_hundredths]
  refine ⟨?_, ?_, ?_, ?_, ?_⟩
  · intro h100
    omega
  · intro h100 h250
    omega
  · intro h250 h1000
    omega
  · intro h1000
    omega
  · intro lb hlb
    subst hlb
    rw [get_thresholds_eq lb hn]
    rfl

/-- Witness for C10 at a concrete size. -/
theorem threshold_positions_in_bounds_witness :
    (get_thresholds [5, 4, 3, 2, 1] 5).isSome :=
  (threshold_positions_in_bounds 5 (by decide)).2.2.2.2 [5, 4, 3, 2, 1] rfl

/-- C6: for a non-empty leaderboard, `is_lower_better` returns true iff the
first row's score is strictly less than the last row's score; in particular
it returns false on a leaderboard sorted descending (higher better) and true
on one sorted (strictly) ascending with at least two rows. -/
theorem is_lower_better_head_last (lb : Leaderboard) (top bot : ℚ)
    (h1 : lb.head? = some top) (h2 : lb.getLast? = some bot) :
    (is_lower_better lb = some true ↔ top < bot) ∧
    (List.Sorted (· ≥ ·) lb → is_lower_better lb = some false) ∧
    (List.Sorted (· < ·) lb → 2 ≤ lb.length → is_lower_better lb = some true) := by
  have heq := is_lower_better_eq_some lb top bot h1 h2
  cases lb with
  | nil => simp at h1
  | cons a l =>
    have htop : a = top := by simpa using h1
    subst htop
    refine ⟨by rw [heq]; simp, ?_, ?_⟩
    · intro hs
      have hbot_mem : bot = a ∨ bot ∈ l := by
        cases l with
        | nil => left; simpa using h2.symm
        | cons b m =>
          right
          have hne : (b :: m) ≠ [] := List.cons_ne_nil b m
          have : (a :: b :: m).getLast (List.cons_ne_nil a (b :: m)) =
              (b :: m).getLast hne := List.getLast_cons hne
          have h3 : bot = (b :: m).getLast hne := by
            rw [List.getLast?_eq_getLast (a :: b :: m)
                  (List.cons_ne_nil a (b :: m))] at h2
            simpa [this] using h2.symm
          rw [h3]
          exact List.getLast_mem hne
      have hle : bot ≤ a := by
        rcases hbot_mem with rfl | hmem
        · exact le_refl _
        · exact (List.sorted_cons.mp hs).1 bot hmem
      rw [heq]
      simp [not_lt.mpr hle]
    · intro hs hlen
      cases l with
      | nil => simp at hlen
      | cons b m =>
        have hne : (b :: m) ≠ [] := List.cons_ne_nil b m
        have h3 : bot = (b :: m).getLast hne := by
          rw [List.getLast?_eq_getLast (a :: b :: m)
                (List.cons_ne_nil a (b :: m))] at h2
          simpa [List.getLast_cons hne] using h2.symm
        have hmem : bot ∈ b :: m := h3 ▸ List.getLast_mem hne
        have hlt : a < bot := (List.sorted_cons.mp hs).1 bot hmem
        rw [heq]
        simp [hlt]

/-- Witness for C6 at the concrete descending leaderboard `[3, 2, 1]`. -/
theorem is_lower_better_head_last_witness :
    (is_lower_better [3, 2, 1] = some true ↔ (3 : ℚ) < 1) ∧
    (List.Sorted (· ≥ ·) [(3 : ℚ), 2, 1] → is_lower_better [3, 2, 1] = some false) ∧
    (List.Sorted (· < ·) [(3 : ℚ), 2, 1] → 2 ≤ ([(3 : ℚ), 2, 1]).length →
      is_lower_better [3, 2, 1] = some true) :=
  is_lower_better_head_last [3, 2, 1] 3 1 rfl rfl

/-- The priority chain of medal booleans, characterised against the spec's
meets-or-beats reading, for arbitrary thresholds. -/
lemma medal_chain_spec (lower : Bool) (sc g s b m : ℚ) :
    (let gold := if lower then decide (sc ≤ g) else decide (sc ≥ g)
     let silver := !gold && (if lower then decide (sc ≤ s) else decide (sc ≥ s))
     let bronze := !gold && !silver &&
       (if lower then decide (sc ≤ b) else decide (sc ≥ b))
     let above := if lower then decide (sc < m) else decide (sc > m)
     (gold = true ↔ meets_or_beats lower sc g) ∧
     (silver = true ↔ (¬ gold = true ∧ meets_or_beats lower sc s)) ∧
     (bronze = true ↔
       (¬ gold = true ∧ ¬ silver = true ∧ meets_or_beats lower sc b)) ∧
     (above = true ↔ (if lower then sc < m else m < sc))) := by
  cases lower <;>
    simp [meets_or_beats, Bool.and_eq_true, Bool.not_eq_true', and_assoc] <;>
  · intro h1 h2
    constructor
    · rintro (h3 | h3) h4
      · exact absurd h3 (not_le.mpr h1)
      · exact h3
    · intro h3
      exact Or.inr (h3 h1)

/-- C2: with a present score, the medal booleans of `rank_score` are mutually
exclusive in priority order — gold iff the score meets-or-beats the gold
threshold (direction-aware), silver iff not gold and it meets-or-beats the
silver threshold, bronze iff not gold, not silver and it meets-or-beats the
bronze threshold — and `above_median` is a strict direction-aware comparison
with the median threshold, independent of the medal flags. -/
theorem rank_score_medal_classification (lb : Leaderboard) (sc : ℚ)
    (lower : Bool) (r : RankResult)
    (h1 : is_lower_better lb = some lower)
    (h2 : rank_score (some sc) lb = some r) :
    (r.gold_medal = true ↔ meets_or_beats lower sc r.gold_threshold) ∧
    (r.silver_medal = true ↔
      (¬ r.gold_medal = true ∧ meets_or_beats lower sc r.silver_threshold)) ∧
    (r.bronze_medal = true ↔
      (¬ r.gold_medal = true ∧ ¬ r.silver_medal = true ∧
        meets_or_beats lower sc r.bronze_threshold)) ∧
    (r.above_median = true ↔
      (if lower then sc < r.median_threshold else r.median_threshold < sc)) := by
  cases lb with
  | nil => simp [is_lower_better] at h1
  | cons a l =>
    have h : 1 ≤ (a :: l).length := by simp
    have hne : (a :: l) ≠ [] := List.cons_ne_nil a l
    have htop := List.head?_eq_head hne
    have hbot := List.getLast?_eq_getLast (a :: l) hne
    rw [is_lower_better_eq_some _ _ _ htop hbot] at h1
    obtain rfl : decide ((a :: l).head hne < (a :: l).getLast hne) = lower :=
      Option.some_injective _ h1
    rw [rank_score_eq_of_nonempty _ h _ _ htop hbot (some sc)] at h2
    obtain rfl := Option.some_injective _ h2.symm
    exact medal_chain_spec (decide ((a :: l).head hne < (a :: l).getLast hne))
      sc (scoreAt (a :: l) (spec_positions (a :: l).length).1)
      (scoreAt (a :: l) (spec_positions (a :: l).length).2.1)
      (scoreAt (a :: l) (spec_positions (a :: l).length).2.2)
      (median (a :: l))

/-- Witness for C2: the concrete leaderboard `[3, 2, 1]` with score 2 (higher
is better, all thresholds 3, median 2). -/
theorem rank_score_medal_classification_witness :
    (false = true ↔ meets_or_beats false 2 3) :=
  (rank_score_medal_classification [3, 2, 1] 2 false
      ⟨false, false, false, false, 3, 3, 3, 2⟩ (by decide)
      (by rw [rank_score_eq_of_nonempty [3, 2, 1] (by simp) 3 1 rfl rfl (some 2)]
          rfl)).1

/-- C3: `Grader.__call__` never propagates an exception from the scoring
function: the distinguished invalid-submission signal yields a `none` score
with one warning log, and any other exception yields a `none` score with one
error log that names the function's source file and starting line when
resolvable, else its string identity. -/
theorem grader_call_absorbs_exceptions (g : GradeFn) (gi : GradingInput)
    (e : GradeExc) (h : g.run gi = .error e) :
    (grader_call g gi).1 = none ∧
    (∀ m, e = .invalidSubmission m →
      (grader_call g gi).2 = [.warning ("Invalid submission: " ++ m)]) ∧
    (∀ m, e = .other m →
      (∀ fpath line, g.sourceLoc = some (fpath, line) →
        (grader_call g gi).2 =
          [.error ("Unexpected error during grading: " ++ m ++ ". Check " ++
                   (fpath ++ ":" ++ toString line))]) ∧
      (g.sourceLoc = none →
        (grader_call g gi).2 =
          [.error ("Unexpected error during grading: " ++ m ++ ". Check " ++
                   g.strRepr)])) := by
  unfold grader_call
  rw [h]
  cases e with
  | invalidSubmission m0 =>
    refine ⟨rfl, ?_, ?_⟩
    · rintro m hm
      cases hm
      rfl
    · rintro m hm
      cases hm
  | other m0 =>
    refine ⟨rfl, ?_, ?_⟩
    · rintro m hm
      cases hm
    · rintro m hm
      cases hm
      refine ⟨?_, ?_⟩
      · rintro fpath line hloc
        rw [hloc]
      · rintro hloc
        rw [hloc]

/-- A scoring function that always raises the invalid-submission signal, with
unresolvable source location. -/
def invalidFn : GradeFn :=
  ⟨fun _ => .error (.invalidSubmission "bad"), none, "fn"⟩

/-- Witness for C3: a concrete scoring function raising the
invalid-submission signal produces no score. -/
theorem grader_call_absorbs_exceptions_witness :
    (grader_call invalidFn GradingInput.empty).1 = none :=
  (grader_call_absorbs_exceptions invalidFn GradingInput.empty
      (.invalidSubmission "bad") rfl).1

/-- The half-up rounding rule at 5 decimal places that claim C5 asserts
(round to the nearest multiple of `10⁻⁵`, ties away from the floor). -/
def round_half_up_5 (q : ℚ) : ℚ := (⌊q * 100000 + 1/2⌋ : ℚ) / 100000

/-- A scoring function returning the float `0.123445`, a tie point of
5-decimal rounding. -/
def tieScoreFn : GradeFn :=
  ⟨fun _ => .ok (.float (123445 / 1000000)), none, "fn"⟩

/-- Counterexample to C5: on the score `0.123445` the grader returns
`0.12344` (banker's rounding of Python `round`), not the half-up value
`0.12345` the claim predicts. -/
theorem grader_call_rounding_not_half_up :
    (grader_call tieScoreFn GradingInput.empty).1 =
      some (.float (12344 / 100000)) ∧
    round_half_up_5 (123445 / 1000000) = 12345 / 100000 ∧
    (12344 / 100000 : ℚ) ≠ 12345 / 100000 := by
  have hmul : (123445 / 1000000 : ℚ) * 100000 = 24689 / 2 := by norm_num
  have hfl : ⌊(24689 : ℚ) / 2⌋ = 12344 := by norm_num [Int.floor_eq_iff]
  have hrnd : roundHalfEven (24689 / 2) = 12344 := by
    rw [roundHalfEven, hfl]
    norm_num
  have h5 : round_5 (123445 / 1000000) = 12344 / 100000 := by
    rw [round_5, hmul, hrnd]
    norm_num
  refine ⟨?_, ?_, by norm_num⟩
  · have h0 : (grader_call tieScoreFn GradingInput.empty).1 =
        some (.float (round_5 (123445 / 1000000))) := rfl
    rw [h0, h5]
  · rw [round_half_up_5]
    have h1 : (123445 / 1000000 * 100000 + 1/2 : ℚ) = ((12345 : ℤ) : ℚ) := by
      norm_num
    rw [h1, Int.floor_intCast]
    norm_num

/-- The integer produced by `roundHalfEven` is within 1/2 of its argument,
and exactly 1/2 away only when it is even. -/
lemma roundHalfEven_close (x : ℚ) :
    |x - roundHalfEven x| ≤ 1/2 ∧
    (|x - roundHalfEven x| = 1/2 → roundHalfEven x % 2 = 0) := by
  have h0 : (⌊x⌋ : ℚ) ≤ x := Int.floor_le x
  have h1 : x < ⌊x⌋ + 1 := Int.lt_floor_add_one x
  unfold roundHalfEven
  split_ifs with ha hb hc
  · constructor
    · rw [abs_of_nonneg (by linarith)]
      linarith
    · intro habs
      rw [abs_of_nonneg (by linarith)] at habs
      linarith
  · constructor
    · rw [abs_of_nonpos (by push_cast; linarith)]
      push_cast
      linarith
    · intro habs
      rw [abs_of_nonpos (by push_cast; linarith)] at habs
      push_cast at habs
      linarith
  · have hx : x - ⌊x⌋ = 1/2 := by linarith
    constructor
    · rw [abs_of_nonneg (by linarith)]
      linarith
    · intro _
      exact hc
  · have hx : x - ⌊x⌋ = 1/2 := by linarith
    constructor
    · rw [abs_of_nonpos (by push_cast; linarith)]
      push_cast
      linarith
    · intro _
      omega

/-- C5 (amended): a float score is returned rounded to the nearest multiple
of `10⁻⁵` with ties going to the even multiple (the half-to-even rule of
Python `round`, not half-up); a non-float return value such as an integer is
returned unchanged. -/
theorem grader_call_rounds_half_to_even (g : GradeFn) (gi : GradingInput)
    (q : ℚ) (h : g.run gi = .ok (.float q)) :
    (∃ k : ℤ, (grader_call g gi).1 = some (.float ((k : ℚ) / 100000)) ∧
       |q - (k : ℚ) / 100000| ≤ 1 / 200000 ∧
       (|q - (k : ℚ) / 100000| = 1 / 200000 → k % 2 = 0)) ∧
    (∀ (g2 : GradeFn) (z : ℤ), g2.run gi = .ok (.int z) →
       (grader_call g2 gi).1 = some (.int z)) := by
  constructor
  · refine ⟨roundHalfEven (q * 100000), ?_, ?_, ?_⟩
    · unfold grader_call
      rw [h]
      rfl
    · have key := (roundHalfEven_close (q * 100000)).1
      have heq : q - (roundHalfEven (q * 100000) : ℚ) / 100000 =
          (q * 100000 - roundHalfEven (q * 100000)) / 100000 := by
        ring
      rw [heq, abs_div, abs_of_pos (by norm_num : (0:ℚ) < 100000)]
      linarith
    · intro habs
      have heq : q - (roundHalfEven (q * 100000) : ℚ) / 100000 =
          (q * 100000 - roundHalfEven (q * 100000)) / 100000 := by
        ring
      rw [heq, abs_div, abs_of_pos (by norm_num : (0:ℚ) < 100000)] at habs
      exact (roundHalfEven_close (q * 100000)).2 (by linarith)
  · intro g2 z h2
    unfold grader_call
    rw [h2]

/-- Witness for the amended C5 at the tie score `0.123445`. -/
theorem grader_call_rounds_half_to_even_witness :
    ∃ k : ℤ, (grader_call tieScoreFn GradingInput.empty).1 =
        some (.float ((k : ℚ) / 100000)) ∧
      |123445 / 1000000 - (k : ℚ) / 100000| ≤ 1 / 200000 ∧
      (|123445 / 1000000 - (k : ℚ) / 100000| = 1 / 200000 → k % 2 = 0) :=
  (grader_call_rounds_half_to_even tieScoreFn GradingInput.empty
      (123445 / 1000000) rfl).1

/-- Validity of a `CompetitionReport` for encoding purposes: the four
threshold fields and the five medal booleans are populated (a `None`
threshold would make `float(...)` in `to_dict` raise, and a `None` boolean
would be collapsed to `False` by `bool(...)`, breaking the round trip). -/
def CompetitionReport.Valid (r : CompetitionReport) : Prop :=
  r.gold_threshold.isSome ∧ r.silver_threshold.isSome ∧
  r.bronze_threshold.isSome ∧ r.median_threshold.isSome ∧
  r.any_medal.isSome ∧ r.gold_medal.isSome ∧ r.silver_medal.isSome ∧
  r.bronze_medal.isSome ∧ r.above_median.isSome

/-- C4: `from_dict (to_dict r)` reconstructs any valid `CompetitionReport`
exactly — the score is compared by the numeric value it denotes, which is
what survives its pass through the string encoding — and the same round trip
holds for every `CodeCompetitionReport` with no validity proviso. -/
theorem report_dict_round_trip (r : CompetitionReport) (h : r.Valid) :
    (∃ d, r.to_dict = some d ∧ CompetitionReport.from_dict d = r) ∧
    ∀ c : CodeCompetitionReport,
      CodeCompetitionReport.from_dict c.to_dict = c := by
  constructor
  · obtain ⟨hg, hs, hb, hm, ha, hgm, hsm, hbm, ham⟩ := h
    rcases r with ⟨cid, sc, gt, st, bt, mt, am, gm, sm, bm, ab, se, vs, ilb, ca, sp⟩
    obtain ⟨g, rfl⟩ := Option.isSome_iff_exists.mp hg
    obtain ⟨s, rfl⟩ := Option.isSome_iff_exists.mp hs
    obtain ⟨b, rfl⟩ := Option.isSome_iff_exists.mp hb
    obtain ⟨m, rfl⟩ := Option.isSome_iff_exists.mp hm
    obtain ⟨a, rfl⟩ := Option.isSome_iff_exists.mp ha
    obtain ⟨g2, rfl⟩ := Option.isSome_iff_exists.mp hgm
    obtain ⟨s2, rfl⟩ := Option.isSome_iff_exists.mp hsm
    obtain ⟨b2, rfl⟩ := Option.isSome_iff_exists.mp hbm
    obtain ⟨a2, rfl⟩ := Option.isSome_iff_exists.mp ham
    exact ⟨_, rfl, rfl⟩
  · intro c
    cases c
    rfl

/-- Witness for C4 at a concrete valid report. -/
theorem report_dict_round_trip_witness :
    (∃ d, (CompetitionReport.to_dict
        ⟨"comp", some 1, some 2, some 3, some 4, some 5, some true, some true,
         some false, some false, some true, true, true, false, 7, "path"⟩) = some d ∧
      CompetitionReport.from_dict d =
        ⟨"comp", some 1, some 2, some 3, some 4, some 5, some true, some true,
         some false, some false, some true, true, true, false, 7, "path"⟩) ∧
    ∀ c : CodeCompetitionReport,
      CodeCompetitionReport.from_dict c.to_dict = c :=
  report_dict_round_trip
    ⟨"comp", some 1, some 2, some 3, some 4, some 5, some true, some true,
     some false, some false, some true, true, true, false, 7, "path"⟩
    ⟨rfl, rfl, rfl, rfl, rfl, rfl, rfl, rfl, rfl⟩

/-- C9: decoding a dictionary leaves the caller's dictionary unchanged — in
the heap model, every dictionary that existed before the call holds the same
contents afterwards (the only heap effects of `from_dict` are one read of the
argument and the allocation of its defensive copy), for both record types. -/
theorem from_dict_leaves_input_unchanged
    (ds : List CompetitionReportDict) (cs : List CodeCompetitionReportDict)
    (p q : ℕ) (hp : p < ds.length) (hq : q < cs.length) :
    (∀ i, i < ds.length → ((from_dict_heap ds p).2)[i]? = ds[i]?) ∧
    (∀ j, j < cs.length → ((code_from_dict_heap cs q).2)[j]? = cs[j]?) := by
  constructor
  · intro i hi
    unfold from_dict_heap
    rw [List.getElem?_eq_getElem hp]
    exact List.getElem?_append_left hi
  · intro j hj
    unfold code_from_dict_heap
    rw [List.getElem?_eq_getElem hq]
    exact List.getElem?_append_left hj

/-- Witness for C9 at singleton heaps and slot 0. -/
theorem from_dict_leaves_input_unchanged_witness :
    ((from_dict_heap [⟨"c", none, 1, 2, 3, 4, true, true, false, false, true,
        true, true, false, 7, "p"⟩] 0).2)[0]? =
      ([(⟨"c", none, 1, 2, 3, 4, true, true, false, false, true, true, true,
          false, 7, "p"⟩ : CompetitionReportDict)])[0]? :=
  (from_dict_leaves_input_unchanged
      [⟨"c", none, 1, 2, 3, 4, true, true, false, false, true, true, true,
        false, 7, "p"⟩]
      [⟨"c", none, none, none, none, none, none, none, true, true, 7, "p"⟩]
      0 0 (by simp) (by simp)).1 0 (by simp)

end TimeSeriesGym
